import Mathlib

/-!
# Verification of the tile-painting demo

A shallow embedding of `src/main.rs`, a mouse-driven tile-painting grid
built on a 2D game engine: startup spawns a 10×10 grid of tiles with
random types, and three per-frame systems implement click-to-paint,
hover-highlight and type-selector buttons.

Modelling choices:
* engine `f32` coordinates and color channels are embedded as exact `ℚ`;
* the engine's random byte source is an explicit stream `rand : ℕ → ℕ`
  (the source draws one `u8` per tile, reduced `% 4`);
* the three `Update` systems (`mouse_click_system`, `tile_hover_system`,
  `tile_type_button_system`) are registered as an unchained tuple, so the
  engine may schedule them in any order; a frame runs them in an
  arbitrary permutation of that list, against explicit per-frame input
  (button edge state, cursor world position when the cursor maps into the
  window, UI interaction changes);
* the fallible engine lookups (`cursor_position`, `viewport_to_world`)
  are collapsed into one `Option (ℚ × ℚ)` cursor world position.
-/

namespace AztlanGarden

/-- Engine RGB color, embedded as exact rational channels. -/
structure Color where
  r : ℚ
  g : ℚ
  b : ℚ
  deriving DecidableEq, Repr

/-- `Color::rgb(r, g, b)`. -/
def Color.rgb (r g b : ℚ) : Color := ⟨r, g, b⟩

/-- `Color::GREEN`. -/
def Color.GREEN : Color := Color.rgb 0 1 0

/-- `Color::BLUE`. -/
def Color.BLUE : Color := Color.rgb 0 0 1

/-- `Color::YELLOW`, the hover highlight color. -/
def Color.YELLOW : Color := Color.rgb 1 1 0

/-- `const TILE_SIZE: f32 = 32.0`. -/
def TILE_SIZE : ℚ := 32

/-- `const GRID_WIDTH: u32 = 10`. -/
def GRID_WIDTH : ℕ := 10

/-- `const GRID_HEIGHT: u32 = 10`. -/
def GRID_HEIGHT : ℕ := 10

/-- `enum TileType { Grass, Dirt, Water, Crop }`. -/
inductive TileType where
  | Grass
  | Dirt
  | Water
  | Crop
  deriving DecidableEq, Repr

/-- `TileType::color`. -/
def TileType.color : TileType → Color
  | .Grass => Color.GREEN
  | .Dirt => Color.rgb (1/2) (1/4) (1/10)
  | .Water => Color.BLUE
  | .Crop => Color.rgb (1/10) (1/2) (1/10)

/-- One tile entity: its `TilePosition { x, y }` components, its
`Transform` translation, its sprite `custom_size`, its `TileType`
component, and its displayed sprite color. -/
structure Tile where
  x : ℕ
  y : ℕ
  pos : ℚ × ℚ
  size : ℚ
  ty : TileType
  color : Color
  deriving DecidableEq, Repr

/-- `match random::<u8>() % 4 { 0 => Grass, 1 => Dirt, 2 => Water, _ => Crop }`.
A `u8` value is `b % 256`, and `(b % 256) % 4 = b % 4`. -/
def tileTypeOfByte (b : ℕ) : TileType :=
  match b % 4 with
  | 0 => .Grass
  | 1 => .Dirt
  | 2 => .Water
  | _ => .Crop

/-- The transform translation computed in `spawn_tiles`:
`(x * TILE_SIZE - GRID_WIDTH * TILE_SIZE / 2, y * TILE_SIZE - GRID_HEIGHT * TILE_SIZE / 2)`. -/
def tilePos (x y : ℕ) : ℚ × ℚ :=
  ((x : ℚ) * TILE_SIZE - (GRID_WIDTH : ℚ) * TILE_SIZE / 2,
   (y : ℚ) * TILE_SIZE - (GRID_HEIGHT : ℚ) * TILE_SIZE / 2)

/-- The tile spawned at grid coordinate `(x, y)`; `rand` is the random
byte stream, consumed in loop order (`y` outer, `x` inner), so the tile
at `(x, y)` consumes byte number `y * GRID_WIDTH + x`. -/
def spawnTile (rand : ℕ → ℕ) (x y : ℕ) : Tile :=
  let tile_type := tileTypeOfByte (rand (y * GRID_WIDTH + x))
  { x := x
    y := y
    pos := tilePos x y
    size := TILE_SIZE - 2
    ty := tile_type
    color := tile_type.color }

/-- `spawn_tiles`: the startup system, spawning the grid row by row. -/
def spawn_tiles (rand : ℕ → ℕ) : List Tile :=
  (List.range GRID_HEIGHT).flatMap fun y =>
    (List.range GRID_WIDTH).map fun x => spawnTile rand x y

/-- The axis-aligned bounding-box test shared by `mouse_click_system` and
`tile_hover_system`:
`(world_pos.x - pos.x).abs() < half_size && (world_pos.y - pos.y).abs() < half_size`
with `half_size = TILE_SIZE / 2`. -/
def hitTest (world_pos pos : ℚ × ℚ) : Bool :=
  let half_size := TILE_SIZE / 2
  let in_x := decide (|world_pos.1 - pos.1| < half_size)
  let in_y := decide (|world_pos.2 - pos.2| < half_size)
  in_x && in_y

/-- `mouse_click_system`: on a left edge-press with a cursor world
position, every tile whose box contains the point gets the selected type
and its color refreshed; otherwise the frame's action is skipped. -/
def mouse_click_system (justPressedLeft : Bool) (cursorWorld : Option (ℚ × ℚ))
    (selected : TileType) (tiles : List Tile) : List Tile :=
  if justPressedLeft then
    match cursorWorld with
    | some world_pos =>
        tiles.map fun t =>
          if hitTest world_pos t.pos then
            { t with ty := selected, color := selected.color }
          else t
    | none => tiles
  else tiles

/-- `tile_hover_system`: with a cursor world position, the tile under the
cursor is drawn `YELLOW` and every other tile in its type's color;
without one, the frame's action is skipped. -/
def tile_hover_system (cursorWorld : Option (ℚ × ℚ)) (tiles : List Tile) :
    List Tile :=
  match cursorWorld with
  | some world_pos =>
      tiles.map fun t =>
        if hitTest world_pos t.pos then { t with color := Color.YELLOW }
        else { t with color := t.ty.color }
  | none => tiles

/-- Bevy's `Interaction` component states. -/
inductive Interaction where
  | Pressed
  | Hovered
  | None
  deriving DecidableEq, Repr

/-- `tile_type_button_system`: fold over the buttons whose interaction
changed this frame, in query order; `Pressed` selects that button's type,
`Hovered` and `None` do nothing. -/
def tile_type_button_system (events : List (Interaction × TileType))
    (selected : TileType) : TileType :=
  events.foldl
    (fun sel e =>
      match e.1 with
      | .Pressed => e.2
      | .Hovered => sel
      | .None => sel)
    selected

/-- `insert_resource(SelectedTileType(TileType::Grass))` in `main`. -/
def initialSelected : TileType := TileType.Grass

/-- The per-frame input surface: left-button edge-press state, the cursor
world position (`none` when the cursor is outside the window or does not
map to a world point), and the UI interaction changes with the associated
button types. -/
structure FrameInput where
  justPressedLeft : Bool
  cursorWorld : Option (ℚ × ℚ)
  buttonEvents : List (Interaction × TileType)

/-- The mutable application state: the tile entities and the
`SelectedTileType` resource. -/
structure AppState where
  tiles : List Tile
  selected : TileType
  deriving DecidableEq

/-- A tag for each of the three `Update` systems registered in `main`. -/
inductive SystemTag where
  | click
  | hover
  | buttons
  deriving DecidableEq, Repr

/-- Run one `Update` system against the frame input. -/
def runSystem (inp : FrameInput) (tag : SystemTag) (s : AppState) : AppState :=
  match tag with
  | .click =>
      let tiles2 := mouse_click_system inp.justPressedLeft inp.cursorWorld
        s.selected s.tiles
      { s with tiles := tiles2 }
  | .hover => { s with tiles := tile_hover_system inp.cursorWorld s.tiles }
  | .buttons =>
      let selected2 := tile_type_button_system inp.buttonEvents s.selected
      { s with selected := selected2 }

/-- The `Update` systems as listed in `main`'s `add_systems` tuple:
`(mouse_click_system, tile_hover_system, tile_type_button_system)`. -/
def updateSystems : List SystemTag :=
  [SystemTag.click, SystemTag.hover, SystemTag.buttons]

/-- One `Update` frame, running the three systems in the given order.
The `add_systems` tuple carries no `.chain()` ordering constraint, so the
engine may schedule the three systems in any order; frame steps therefore
take an arbitrary permutation of `updateSystems`. -/
def frame (order : List SystemTag) (inp : FrameInput) (s : AppState) : AppState :=
  order.foldl (fun st tag => runSystem inp tag st) s

/-- States reachable at frame boundaries: the startup state for some
random stream, closed under frames run in any engine-chosen system
order. -/
inductive Reachable : AppState → Prop where
  | init (rand : ℕ → ℕ) : Reachable ⟨spawn_tiles rand, initialSelected⟩
  | step {s : AppState} (inp : FrameInput) (order : List SystemTag)
      (hperm : order.Perm updateSystems) :
      Reachable s → Reachable (frame order inp s)

/-- The static layout data of a tile list: grid coordinates and transform
of each tile, in entity order. -/
def layoutOf (tiles : List Tile) : List (ℕ × ℕ × (ℚ × ℚ)) :=
  tiles.map fun t => (t.x, t.y, t.pos)

/-- The layout the startup system produces, independent of the random
stream: tile number `k` sits at grid coordinate `(k % 10, k / 10)`. -/
def gridLayout : List (ℕ × ℕ × (ℚ × ℚ)) :=
  (List.range (GRID_HEIGHT * GRID_WIDTH)).map fun k =>
    (k % GRID_WIDTH, k / GRID_WIDTH, tilePos (k % GRID_WIDTH) (k / GRID_WIDTH))

/-- The displayed-color invariant claimed for frame-boundary states with
frame cursor input `cursorWorld`: the tile under the cursor shows the
highlight color; every other tile shows its type's mapped color. -/
def colorInvariant (cursorWorld : Option (ℚ × ℚ)) (tiles : List Tile) : Prop :=
  ∀ t ∈ tiles,
    match cursorWorld with
    | some w =>
        if hitTest w t.pos then t.color = Color.YELLOW
        else t.color = t.ty.color
    | none => t.color = t.ty.color

/-- The type of the last `Pressed` entry of an interaction-change list,
if any: later entries in query order override earlier ones. -/
def lastPressed : List (Interaction × TileType) → Option TileType
  | [] => none
  | e :: es =>
    match lastPressed es with
    | some t => some t
    | none =>
      match e.1 with
      | .Pressed => some e.2
      | _ => none

/-! ## Basic characterizations -/

theorem hitTest_iff (world_pos pos : ℚ × ℚ) :
    hitTest world_pos pos = true ↔
      |world_pos.1 - pos.1| < TILE_SIZE / 2 ∧ |world_pos.2 - pos.2| < TILE_SIZE / 2 := by
  simp [hitTest]

theorem hitTest_eq_false_of_far_x {world_pos pos : ℚ × ℚ}
    (h : TILE_SIZE / 2 ≤ |world_pos.1 - pos.1|) : hitTest world_pos pos = false := by
  rw [Bool.eq_false_iff]
  intro hc
  exact absurd ((hitTest_iff _ _).mp hc).1 (not_lt.mpr h)

theorem spawn_tiles_flat (rand : ℕ → ℕ) :
    spawn_tiles rand =
      (List.range (GRID_HEIGHT * GRID_WIDTH)).map fun k =>
        spawnTile rand (k % GRID_WIDTH) (k / GRID_WIDTH) := rfl

theorem spawn_tiles_getElem (rand : ℕ → ℕ) {k : ℕ}
    (h : k < GRID_HEIGHT * GRID_WIDTH) :
    (spawn_tiles rand)[k]? = some (spawnTile rand (k % GRID_WIDTH) (k / GRID_WIDTH)) := by
  rw [spawn_tiles_flat, List.getElem?_map, List.getElem?_range h]
  rfl

theorem mem_spawn_tiles {rand : ℕ → ℕ} {t : Tile} (h : t ∈ spawn_tiles rand) :
    ∃ k < GRID_HEIGHT * GRID_WIDTH,
      t = spawnTile rand (k % GRID_WIDTH) (k / GRID_WIDTH) := by
  rw [spawn_tiles_flat] at h
  obtain ⟨k, hk, rfl⟩ := List.mem_map.mp h
  exact ⟨k, List.mem_range.mp hk, rfl⟩

/-! ## Layout preservation: no system moves a tile or changes its grid
coordinates, so every reachable state has the startup layout. -/

theorem layoutOf_spawn_tiles (rand : ℕ → ℕ) :
    layoutOf (spawn_tiles rand) = gridLayout := rfl

theorem layoutOf_mouse_click (b : Bool) (c : Option (ℚ × ℚ)) (sel : TileType)
    (tiles : List Tile) :
    layoutOf (mouse_click_system b c sel tiles) = layoutOf tiles := by
  cases b with
  | false => rfl
  | true =>
    cases c with
    | none => rfl
    | some w =>
      simp only [mouse_click_system, if_true, layoutOf, List.map_map]
      refine List.map_congr_left fun t _ => ?_
      by_cases h : hitTest w t.pos <;> simp [Function.comp, h]

theorem layoutOf_hover (c : Option (ℚ × ℚ)) (tiles : List Tile) :
    layoutOf (tile_hover_system c tiles) = layoutOf tiles := by
  cases c with
  | none => rfl
  | some w =>
    simp only [tile_hover_system, layoutOf, List.map_map]
    refine List.map_congr_left fun t _ => ?_
    by_cases h : hitTest w t.pos <;> simp [Function.comp, h]

theorem layoutOf_runSystem (inp : FrameInput) (tag : SystemTag) (s : AppState) :
    layoutOf (runSystem inp tag s).tiles = layoutOf s.tiles := by
  cases tag with
  | click => exact layoutOf_mouse_click _ _ _ _
  | hover => exact layoutOf_hover _ _
  | buttons => rfl

theorem layoutOf_frame (order : List SystemTag) (inp : FrameInput) (s : AppState) :
    layoutOf (frame order inp s).tiles = layoutOf s.tiles := by
  induction order generalizing s with
  | nil => rfl
  | cons tag rest ih =>
    show layoutOf (frame rest inp (runSystem inp tag s)).tiles = _
    rw [ih, layoutOf_runSystem]

theorem layoutOf_reachable {s : AppState} (h : Reachable s) :
    layoutOf s.tiles = gridLayout := by
  induction h with
  | init rand => exact layoutOf_spawn_tiles rand
  | step inp order hperm _ ih => rw [layoutOf_frame]; exact ih

/-! ## Tile boxes at distinct grid coordinates are disjoint -/

theorem one_le_abs_natCast_sub {a b : ℕ} (h : a ≠ b) : 1 ≤ |(a : ℚ) - b| := by
  have h1 : (a : ℤ) - b ≠ 0 := sub_ne_zero.mpr (by exact_mod_cast h)
  have h2 : (1 : ℤ) ≤ |(a : ℤ) - b| := Int.one_le_abs h1
  calc (1 : ℚ) = ((1 : ℤ) : ℚ) := by norm_num
    _ ≤ ((|(a : ℤ) - b| : ℤ) : ℚ) := by exact_mod_cast h2
    _ = |(a : ℚ) - b| := by push_cast; ring_nf

theorem hitTest_not_both {p q w : ℚ × ℚ}
    (h : TILE_SIZE ≤ |p.1 - q.1| ∨ TILE_SIZE ≤ |p.2 - q.2|) :
    ¬(hitTest w p = true ∧ hitTest w q = true) := by
  rintro ⟨hp, hq⟩
  obtain ⟨hp1, hp2⟩ := (hitTest_iff _ _).mp hp
  obtain ⟨hq1, hq2⟩ := (hitTest_iff _ _).mp hq
  rcases h with h | h
  · have h3 : |p.1 - q.1| ≤ |p.1 - w.1| + |w.1 - q.1| := abs_sub_le _ _ _
    rw [abs_sub_comm] at hp1
    linarith
  · have h3 : |p.2 - q.2| ≤ |p.2 - w.2| + |w.2 - q.2| := abs_sub_le _ _ _
    rw [abs_sub_comm] at hp2
    linarith

theorem tilePos_sub_fst (x1 y1 x2 y2 : ℕ) :
    (tilePos x1 y1).1 - (tilePos x2 y2).1 = TILE_SIZE * ((x1 : ℚ) - x2) := by
  simp only [tilePos]
  ring

theorem tilePos_sub_snd (x1 y1 x2 y2 : ℕ) :
    (tilePos x1 y1).2 - (tilePos x2 y2).2 = TILE_SIZE * ((y1 : ℚ) - y2) := by
  simp only [tilePos]
  ring

theorem tilePos_far {x1 y1 x2 y2 : ℕ} (h : ¬(x1 = x2 ∧ y1 = y2)) :
    TILE_SIZE ≤ |(tilePos x1 y1).1 - (tilePos x2 y2).1| ∨
      TILE_SIZE ≤ |(tilePos x1 y1).2 - (tilePos x2 y2).2| := by
  have hts : (0 : ℚ) ≤ TILE_SIZE := by norm_num [TILE_SIZE]
  rcases not_and_or.mp h with h | h
  · left
    rw [tilePos_sub_fst, abs_mul, abs_of_nonneg hts]
    calc TILE_SIZE = TILE_SIZE * 1 := by ring
      _ ≤ TILE_SIZE * |(x1 : ℚ) - x2| :=
        mul_le_mul_of_nonneg_left (one_le_abs_natCast_sub h) hts
  · right
    rw [tilePos_sub_snd, abs_mul, abs_of_nonneg hts]
    calc TILE_SIZE = TILE_SIZE * 1 := by ring
      _ ≤ TILE_SIZE * |(y1 : ℚ) - y2| :=
        mul_le_mul_of_nonneg_left (one_le_abs_natCast_sub h) hts

theorem tilePos_disjoint {x1 y1 x2 y2 : ℕ} (h : ¬(x1 = x2 ∧ y1 = y2)) (w : ℚ × ℚ) :
    ¬(hitTest w (tilePos x1 y1) = true ∧ hitTest w (tilePos x2 y2) = true) :=
  hitTest_not_both (tilePos_far h)

/-! ## Counting helpers -/

theorem countP_le_one_of_pairwise {α : Type} {p : α → Bool} {l : List α}
    (h : l.Pairwise fun a b => ¬(p a = true ∧ p b = true)) : l.countP p ≤ 1 := by
  induction l with
  | nil => simp
  | cons a l ih =>
    obtain ⟨ha, hl⟩ := List.pairwise_cons.mp h
    by_cases hpa : p a = true
    · rw [List.countP_cons_of_pos _ _ hpa]
      have h0 : l.countP p = 0 :=
        List.countP_eq_zero.mpr fun b hb hpb => ha b hb ⟨hpa, hpb⟩
      omega
    · rw [List.countP_cons_of_neg _ _ hpa]
      exact ih hl

theorem zip_map_left_self {α : Type} (f : α → α) (l : List α) :
    (l.map f).zip l = l.map fun a => (f a, a) := by
  induction l with
  | nil => rfl
  | cons a l ih => simp [ih]

/-! ## Separation of tiles: the properties claimed of reachable states -/

/-- No two tiles share a grid coordinate, distinct tiles' boxes are
pairwise disjoint, and every world point lies in at most one tile's box. -/
def tilesSeparated (tiles : List Tile) : Prop :=
  (tiles.Pairwise fun a b => ¬(a.x = b.x ∧ a.y = b.y)) ∧
  (tiles.Pairwise fun a b => ∀ w : ℚ × ℚ,
    ¬(hitTest w a.pos = true ∧ hitTest w b.pos = true)) ∧
  ∀ w : ℚ × ℚ, (tiles.countP fun t => hitTest w t.pos) ≤ 1

/-- A click changes at most one entry of the tile list. -/
def atMostOneRepaint (tiles : List Tile) : Prop :=
  ∀ (w : ℚ × ℚ) (sel : TileType),
    (((mouse_click_system true (some w) sel tiles).zip tiles).countP fun pr =>
      decide (pr.1 ≠ pr.2)) ≤ 1

theorem gridLayout_pairwise :
    gridLayout.Pairwise fun a b =>
      ¬(a.1 = b.1 ∧ a.2.1 = b.2.1) ∧
      ∀ w : ℚ × ℚ, ¬(hitTest w a.2.2 = true ∧ hitTest w b.2.2 = true) := by
  unfold gridLayout
  rw [List.pairwise_map]
  refine (List.pairwise_lt_range _).imp fun {k l} hkl => ?_
  have hne : ¬(k % GRID_WIDTH = l % GRID_WIDTH ∧ k / GRID_WIDTH = l / GRID_WIDTH) := by
    simp only [GRID_WIDTH]
    omega
  exact ⟨hne, fun w => tilePos_disjoint hne w⟩

theorem tilesSeparated_of_layout {tiles : List Tile}
    (h : layoutOf tiles = gridLayout) : tilesSeparated tiles := by
  have hp := gridLayout_pairwise
  rw [← h] at hp
  unfold layoutOf at hp
  rw [List.pairwise_map] at hp
  exact ⟨hp.imp fun hab => hab.1, hp.imp fun hab => hab.2,
    fun w => countP_le_one_of_pairwise ((hp.imp fun hab => hab.2).imp fun hab => hab w)⟩

theorem atMostOneRepaint_of_sep {tiles : List Tile} (h : tilesSeparated tiles) :
    atMostOneRepaint tiles := by
  intro w sel
  have hle : (((mouse_click_system true (some w) sel tiles).zip tiles).countP fun pr =>
      decide (pr.1 ≠ pr.2)) ≤ tiles.countP fun t => hitTest w t.pos := by
    show (((tiles.map fun t =>
        if hitTest w t.pos then { t with ty := sel, color := sel.color } else t).zip
          tiles).countP fun pr => decide (pr.1 ≠ pr.2)) ≤ _
    rw [zip_map_left_self, List.countP_map]
    refine List.countP_mono_left fun t _ ht => ?_
    simp only [Function.comp_apply, decide_eq_true_eq] at ht
    by_cases hh : hitTest w t.pos
    · exact hh
    · simp [hh] at ht
  exact le_trans hle (h.2.2 w)

/-- C6: in every reachable state no two tiles occupy the same grid
coordinate, the bounding boxes of distinct tiles are pairwise disjoint,
every cursor world point is contained in at most one tile's box, and a
click repaints at most one tile. -/
theorem claim_C6_tiles_disjoint {s : AppState} (h : Reachable s) :
    tilesSeparated s.tiles ∧ atMostOneRepaint s.tiles :=
  have hs := tilesSeparated_of_layout (layoutOf_reachable h)
  ⟨hs, atMostOneRepaint_of_sep hs⟩

/-- Witness for C6 at the startup state of the all-zero random stream. -/
theorem claim_C6_witness :
    tilesSeparated (spawn_tiles fun _ => 0) ∧
      atMostOneRepaint (spawn_tiles fun _ => 0) :=
  claim_C6_tiles_disjoint (Reachable.init fun _ => 0)

set_option maxRecDepth 4000 in
/-- C8: each spawned tile's type comes from one random byte reduced
modulo 4, and that mapping sends exactly 64 of the 256 possible byte
values to each of the four types. -/
theorem claim_C8_uniform_types :
    (∀ (rand : ℕ → ℕ) (x y : ℕ),
      (spawnTile rand x y).ty = tileTypeOfByte (rand (y * GRID_WIDTH + x))) ∧
    ∀ T : TileType,
      ((List.range 256).countP fun b => decide (tileTypeOfByte b = T)) = 64 :=
  ⟨fun _ _ _ => rfl, by intro T; cases T <;> decide⟩

/-- C9: painting is idempotent: clicking at the same world point with the
same selected type a second time changes nothing. -/
theorem claim_C9_click_idempotent (w : ℚ × ℚ) (sel : TileType) (tiles : List Tile) :
    mouse_click_system true (some w) sel (mouse_click_system true (some w) sel tiles) =
      mouse_click_system true (some w) sel tiles := by
  show ((tiles.map fun t =>
      if hitTest w t.pos then { t with ty := sel, color := sel.color } else t).map
        fun t => if hitTest w t.pos then { t with ty := sel, color := sel.color } else t) =
    tiles.map fun t =>
      if hitTest w t.pos then { t with ty := sel, color := sel.color } else t
  rw [List.map_map]
  refine List.map_congr_left fun t _ => ?_
  by_cases h : hitTest w t.pos <;> simp [Function.comp, h]

theorem spawnTile_pos_fst (rand : ℕ → ℕ) (x y : ℕ) :
    (spawnTile rand x y).pos.1 =
      (x : ℚ) * TILE_SIZE - (GRID_WIDTH : ℚ) * TILE_SIZE / 2 := rfl

theorem spawnTile_x (rand : ℕ → ℕ) (x y : ℕ) : (spawnTile rand x y).x = x := rfl

theorem spawnTile_y (rand : ℕ → ℕ) (x y : ℕ) : (spawnTile rand x y).y = y := rfl

/-- C7: a click with no cursor world position (mouse outside the window),
or at a world point inside no tile's bounding box, changes no tile. -/
theorem claim_C7_miss_changes_nothing (tiles : List Tile) (sel : TileType) :
    (∀ b : Bool, mouse_click_system b none sel tiles = tiles) ∧
    ∀ w : ℚ × ℚ, (∀ t ∈ tiles, hitTest w t.pos = false) →
      mouse_click_system true (some w) sel tiles = tiles := by
  refine ⟨fun b => by cases b <;> rfl, fun w h => ?_⟩
  show (tiles.map fun t =>
      if hitTest w t.pos then { t with ty := sel, color := sel.color } else t) = tiles
  conv_rhs => rw [← List.map_id tiles]
  refine List.map_congr_left fun t ht => ?_
  simp [h t ht]

/-- Witness for C7: clicking at world point (500, 500), far to the right
of the grid, leaves the startup tile list unchanged. -/
theorem claim_C7_witness :
    mouse_click_system true (some (500, 500)) TileType.Dirt (spawn_tiles fun _ => 0) =
      spawn_tiles fun _ => 0 := by
  refine (claim_C7_miss_changes_nothing _ _).2 (500, 500) fun t ht => ?_
  obtain ⟨k, hk, rfl⟩ := mem_spawn_tiles ht
  refine hitTest_eq_false_of_far_x ?_
  rw [spawnTile_pos_fst]
  have ha : k % GRID_WIDTH ≤ 9 := by simp only [GRID_WIDTH]; omega
  have ha2 : ((k % GRID_WIDTH : ℕ) : ℚ) ≤ 9 := by exact_mod_cast ha
  have h3 : (372 : ℚ) ≤ ((500, 500) : ℚ × ℚ).1 -
      (((k % GRID_WIDTH : ℕ) : ℚ) * TILE_SIZE - (GRID_WIDTH : ℚ) * TILE_SIZE / 2) := by
    show (372 : ℚ) ≤ 500 - (((k % GRID_WIDTH : ℕ) : ℚ) * TILE_SIZE -
      (GRID_WIDTH : ℚ) * TILE_SIZE / 2)
    simp only [GRID_WIDTH, TILE_SIZE] at ha2 ⊢
    push_cast at ha2 ⊢
    linarith
  calc TILE_SIZE / 2 ≤ 372 := by norm_num [TILE_SIZE]
    _ ≤ _ := h3
    _ ≤ |((500, 500) : ℚ × ℚ).1 - (((k % GRID_WIDTH : ℕ) : ℚ) * TILE_SIZE -
        (GRID_WIDTH : ℚ) * TILE_SIZE / 2)| := le_abs_self _

/-- C4: after initialization every grid coordinate in the 10×10 range is
occupied by exactly one tile, whose screen position is
`(x*TILE_SIZE - GRID_WIDTH*TILE_SIZE/2, y*TILE_SIZE - GRID_HEIGHT*TILE_SIZE/2)`
and whose displayed color is its assigned type's mapped color. -/
theorem claim_C4_unique_positions (rand : ℕ → ℕ) (x y : ℕ)
    (hx : x < GRID_WIDTH) (hy : y < GRID_HEIGHT) :
    ((spawn_tiles rand).countP fun t => decide (t.x = x ∧ t.y = y)) = 1 ∧
    ∀ t ∈ spawn_tiles rand, t.x = x → t.y = y →
      t.pos = tilePos x y ∧ t.color = t.ty.color := by
  constructor
  · rw [spawn_tiles_flat, List.countP_map]
    have hcongr : ∀ k ∈ List.range (GRID_HEIGHT * GRID_WIDTH),
        ((fun t => decide (t.x = x ∧ t.y = y)) ∘ fun k =>
          spawnTile rand (k % GRID_WIDTH) (k / GRID_WIDTH)) k = true ↔
          (k == y * GRID_WIDTH + x) = true := by
      intro k hk
      have hk2 := List.mem_range.mp hk
      simp only [Function.comp_apply, spawnTile_x, spawnTile_y,
        decide_eq_true_eq, beq_iff_eq]
      simp only [GRID_WIDTH, GRID_HEIGHT] at hx hy hk2 ⊢
      omega
    rw [List.countP_congr hcongr]
    have hm : y * GRID_WIDTH + x ∈ List.range (GRID_HEIGHT * GRID_WIDTH) := by
      refine List.mem_range.mpr ?_
      simp only [GRID_WIDTH, GRID_HEIGHT] at hx hy ⊢
      omega
    have hc := List.count_eq_one_of_mem (List.nodup_range _) hm
    simpa [List.count] using hc
  · intro t ht h1 h2
    obtain ⟨k, hk, rfl⟩ := mem_spawn_tiles ht
    have hx2 : k % GRID_WIDTH = x := h1
    have hy2 : k / GRID_WIDTH = y := h2
    refine ⟨?_, rfl⟩
    rw [show (spawnTile rand (k % GRID_WIDTH) (k / GRID_WIDTH)).pos =
        tilePos (k % GRID_WIDTH) (k / GRID_WIDTH) from rfl, hx2, hy2]

/-- Witness for C4 at grid coordinate (3, 7). -/
theorem claim_C4_witness :
    ((spawn_tiles fun _ => 0).countP fun t => decide (t.x = 3 ∧ t.y = 7)) = 1 ∧
    ∀ t ∈ spawn_tiles fun _ => 0, t.x = 3 → t.y = 7 →
      t.pos = tilePos 3 7 ∧ t.color = t.ty.color :=
  claim_C4_unique_positions (fun _ => 0) 3 7
    (by norm_num [GRID_WIDTH]) (by norm_num [GRID_HEIGHT])

theorem mouse_click_system_some_true (w : ℚ × ℚ) (sel : TileType)
    (tiles : List Tile) :
    mouse_click_system true (some w) sel tiles =
      tiles.map fun t =>
        if hitTest w t.pos then { t with ty := sel, color := sel.color } else t := rfl

/-- C1: when the left button is edge-pressed with the cursor at a world
point inside tile `i`'s bounding box and the selected type is `T`, the
click handler repaints exactly tile `i` — it gets type `T` and color
`T.color` — and every other tile keeps its type and color. -/
theorem claim_C1_click_paints {s : AppState} (h : Reachable s) {i : ℕ} {t : Tile}
    (ht : s.tiles[i]? = some t) {w : ℚ × ℚ} (hw : hitTest w t.pos = true)
    (T : TileType) :
    mouse_click_system true (some w) T s.tiles =
      s.tiles.set i { t with ty := T, color := T.color } := by
  have hsep := (tilesSeparated_of_layout (layoutOf_reachable h)).2.1
  obtain ⟨hi, hti⟩ := List.getElem?_eq_some_iff.mp ht
  rw [mouse_click_system_some_true]
  refine List.ext_getElem? fun n => ?_
  rw [List.getElem?_map]
  by_cases hni : n = i
  · subst hni
    rw [ht, List.getElem?_set_self hi]
    simp only [Option.map_some']
    rw [if_pos hw]
  · rw [List.getElem?_set_ne (Ne.symm hni)]
    cases hn : s.tiles[n]? with
    | none => rfl
    | some u =>
      obtain ⟨hn2, hun⟩ := List.getElem?_eq_some_iff.mp hn
      have hdisj : ∀ v : ℚ × ℚ,
          ¬(hitTest v u.pos = true ∧ hitTest v t.pos = true) := by
        rcases Nat.lt_or_ge n i with hlt | hge
        · have hr := List.pairwise_iff_getElem.mp hsep n i hn2 hi hlt
          rw [hun, hti] at hr
          exact hr
        · have hlt2 : i < n := Nat.lt_of_le_of_ne hge fun hh => hni hh.symm
          have hr := List.pairwise_iff_getElem.mp hsep i n hi hn2 hlt2
          rw [hun, hti] at hr
          exact fun v hv => hr v ⟨hv.2, hv.1⟩
      have hu : ¬ hitTest w u.pos = true := fun hc => hdisj w ⟨hc, hw⟩
      simp only [Option.map_some']
      rw [if_neg hu]

theorem spawnTile_pos (rand : ℕ → ℕ) (x y : ℕ) :
    (spawnTile rand x y).pos = tilePos x y := rfl

theorem spawnTile_ty (rand : ℕ → ℕ) (x y : ℕ) :
    (spawnTile rand x y).ty = tileTypeOfByte (rand (y * GRID_WIDTH + x)) := rfl

theorem tile_hover_system_some (w : ℚ × ℚ) (tiles : List Tile) :
    tile_hover_system (some w) tiles =
      tiles.map fun u =>
        if hitTest w u.pos then { u with color := Color.YELLOW }
        else { u with color := u.ty.color } := rfl

/-- Witness for C1: clicking at world point (0, 0) with selected type
Dirt repaints exactly tile number 55, the tile at grid coordinate (5, 5). -/
theorem claim_C1_witness :
    mouse_click_system true (some (0, 0)) TileType.Dirt (spawn_tiles fun _ => 0) =
      (spawn_tiles fun _ => 0).set 55
        { spawnTile (fun _ => 0) 5 5 with
          ty := TileType.Dirt
          color := TileType.Dirt.color } := by
  have ht : (spawn_tiles fun _ => 0)[55]? = some (spawnTile (fun _ => 0) 5 5) := by
    rw [spawn_tiles_getElem (fun _ => 0)
      (show 55 < GRID_HEIGHT * GRID_WIDTH by norm_num [GRID_WIDTH, GRID_HEIGHT])]
    norm_num [GRID_WIDTH]
  have hw : hitTest (0, 0) ((spawnTile (fun _ => 0) 5 5).pos) = true := by
    rw [spawnTile_pos]
    norm_num [hitTest, tilePos, TILE_SIZE, GRID_WIDTH, GRID_HEIGHT]
  exact @claim_C1_click_paints (AppState.mk (spawn_tiles fun _ => 0) initialSelected)
    (Reachable.init _) 55 (spawnTile (fun _ => 0) 5 5) ht (0, 0) hw TileType.Dirt

/-- What the hover handler renders for tile number `i` (holding tile `t`):
highlight color when the cursor world point is inside its box, its type's
mapped color otherwise; and after a further frame whose cursor misses the
tile, its color is its type's mapped color again. -/
def hoverRenders (tiles : List Tile) (w : ℚ × ℚ) (i : ℕ) (t : Tile) : Prop :=
  (hitTest w t.pos = true →
    (tile_hover_system (some w) tiles)[i]? =
      some { t with color := Color.YELLOW }) ∧
  (hitTest w t.pos = false →
    (tile_hover_system (some w) tiles)[i]? =
      some { t with color := t.ty.color }) ∧
  ∀ w' : ℚ × ℚ, hitTest w' t.pos = false →
    (tile_hover_system (some w') (tile_hover_system (some w) tiles))[i]? =
      some { t with color := t.ty.color }

/-- C3: every frame with a cursor world position, the hover handler
recomputes the box test for every tile: the tile whose box contains the
cursor is drawn in the fixed highlight color, every other tile is redrawn
in its own type's mapped color, and a tile the cursor has left is redrawn
in its type's mapped color on the next frame. -/
theorem claim_C3_hover_recompute (tiles : List Tile) (w : ℚ × ℚ) {i : ℕ}
    {t : Tile} (ht : tiles[i]? = some t) : hoverRenders tiles w i t := by
  refine ⟨fun hw => ?_, fun hw => ?_, fun w' hw => ?_⟩
  · rw [tile_hover_system_some, List.getElem?_map, ht, Option.map_some', if_pos hw]
  · rw [tile_hover_system_some, List.getElem?_map, ht, Option.map_some']
    simp [hw]
  · rw [tile_hover_system_some, tile_hover_system_some, List.getElem?_map,
      List.getElem?_map, ht, Option.map_some', Option.map_some']
    by_cases h1 : hitTest w t.pos <;> simp [h1, hw]

/-- Witness for C3 at tile number 55 of the startup grid, with the cursor
at world point (0, 0) inside its box. -/
theorem claim_C3_witness :
    hoverRenders (spawn_tiles fun _ => 0) (0, 0) 55 (spawnTile (fun _ => 0) 5 5) := by
  refine claim_C3_hover_recompute _ _ ?_
  rw [spawn_tiles_getElem (fun _ => 0)
    (show 55 < GRID_HEIGHT * GRID_WIDTH by norm_num [GRID_WIDTH, GRID_HEIGHT])]
  norm_num [GRID_WIDTH]

/-- Enumerate the six orders in which the engine may schedule the three
`Update` systems of an unchained `add_systems` tuple. -/
theorem perm_three {l : List SystemTag} (h : l.Perm updateSystems) :
    l = [SystemTag.click, SystemTag.hover, SystemTag.buttons] ∨
    l = [SystemTag.click, SystemTag.buttons, SystemTag.hover] ∨
    l = [SystemTag.hover, SystemTag.click, SystemTag.buttons] ∨
    l = [SystemTag.hover, SystemTag.buttons, SystemTag.click] ∨
    l = [SystemTag.buttons, SystemTag.click, SystemTag.hover] ∨
    l = [SystemTag.buttons, SystemTag.hover, SystemTag.click] := by
  have hlen : l.length = 3 := by rw [h.length_eq]; rfl
  obtain ⟨x, y, z, rfl⟩ := List.length_eq_three.mp hlen
  cases x <;> cases y <;> cases z <;> revert h <;> decide

/-- The weakened per-frame color property: every tile away from the
cursor displays its type's mapped color; the tile under the cursor
displays the highlight color, or — possible only in a frame with a left
click, under a schedule running the hover system before the click
system — its freshly painted type's mapped color. -/
def colorInvariantUnderCursorClick (pressed : Bool) (w : ℚ × ℚ)
    (tiles : List Tile) : Prop :=
  ∀ t ∈ tiles,
    if hitTest w t.pos then
      t.color = Color.YELLOW ∨ (pressed = true ∧ t.color = t.ty.color)
    else t.color = t.ty.color

theorem hover_colorInvariant (w : ℚ × ℚ) (tiles : List Tile) :
    colorInvariant (some w) (tile_hover_system (some w) tiles) := by
  show ∀ t ∈ tile_hover_system (some w) tiles,
    if hitTest w t.pos then t.color = Color.YELLOW else t.color = t.ty.color
  intro t ht
  rw [tile_hover_system_some] at ht
  obtain ⟨u, hu, rfl⟩ := List.mem_map.mp ht
  by_cases h1 : hitTest w u.pos <;> simp [h1]

theorem loose_of_colorInvariant {w : ℚ × ℚ} {tiles : List Tile}
    (pressed : Bool) (h : colorInvariant (some w) tiles) :
    colorInvariantUnderCursorClick pressed w tiles := by
  intro t ht
  have h2 : if hitTest w t.pos then t.color = Color.YELLOW
    else t.color = t.ty.color := h t ht
  by_cases h1 : hitTest w t.pos
  · rw [if_pos h1] at h2
    rw [if_pos h1]
    exact Or.inl h2
  · rw [if_neg h1] at h2
    rw [if_neg h1]
    exact h2

theorem clickLast_loose (pressed : Bool) (sel : TileType) (w : ℚ × ℚ)
    (tiles : List Tile) :
    colorInvariantUnderCursorClick pressed w
      (mouse_click_system pressed (some w) sel
        (tile_hover_system (some w) tiles)) := by
  cases pressed with
  | false => exact loose_of_colorInvariant false (hover_colorInvariant w tiles)
  | true =>
    intro t ht
    rw [mouse_click_system_some_true, tile_hover_system_some, List.map_map] at ht
    obtain ⟨u, hu, rfl⟩ := List.mem_map.mp ht
    by_cases h1 : hitTest w u.pos <;> simp [Function.comp, h1]

/-- C2 (amended): in every reachable frame-boundary state whose frame
input carried a cursor world position, under every legal system order
(the `add_systems` tuple is unchained, so any permutation of the three
systems), every tile away from the cursor displays its type's mapped
color, and the tile whose box contains the cursor displays the highlight
color — except that in a frame with a left click, an order running hover
before click can leave it displaying its freshly painted type's mapped
color instead. In a frame without a click the original invariant holds
exactly, under every order. Without a cursor world position the hover
system skips the frame and stale colors persist (see the
counterexample). -/
theorem claim_C2_color_invariant {s : AppState} (_hr : Reachable s)
    {order : List SystemTag} (hperm : order.Perm updateSystems)
    (inp : FrameInput) {w : ℚ × ℚ} (hc : inp.cursorWorld = some w) :
    colorInvariantUnderCursorClick inp.justPressedLeft w
      (frame order inp s).tiles ∧
    (inp.justPressedLeft = false →
      colorInvariant inp.cursorWorld (frame order inp s).tiles) := by
  rw [hc]
  rcases perm_three hperm with h6 | h6 | h6 | h6 | h6 | h6 <;> subst h6
  · have ht : (frame [SystemTag.click, SystemTag.hover, SystemTag.buttons]
        inp s).tiles =
        tile_hover_system inp.cursorWorld
          (mouse_click_system inp.justPressedLeft inp.cursorWorld s.selected
            s.tiles) := rfl
    rw [hc] at ht
    rw [ht]
    exact ⟨loose_of_colorInvariant _ (hover_colorInvariant w _),
      fun _ => hover_colorInvariant w _⟩
  · have ht : (frame [SystemTag.click, SystemTag.buttons, SystemTag.hover]
        inp s).tiles =
        tile_hover_system inp.cursorWorld
          (mouse_click_system inp.justPressedLeft inp.cursorWorld s.selected
            s.tiles) := rfl
    rw [hc] at ht
    rw [ht]
    exact ⟨loose_of_colorInvariant _ (hover_colorInvariant w _),
      fun _ => hover_colorInvariant w _⟩
  · have ht : (frame [SystemTag.hover, SystemTag.click, SystemTag.buttons]
        inp s).tiles =
        mouse_click_system inp.justPressedLeft inp.cursorWorld s.selected
          (tile_hover_system inp.cursorWorld s.tiles) := rfl
    rw [hc] at ht
    rw [ht]
    refine ⟨clickLast_loose inp.justPressedLeft s.selected w s.tiles, fun hp => ?_⟩
    rw [hp]
    exact hover_colorInvariant w s.tiles
  · have ht : (frame [SystemTag.hover, SystemTag.buttons, SystemTag.click]
        inp s).tiles =
        mouse_click_system inp.justPressedLeft inp.cursorWorld
          (tile_type_button_system inp.buttonEvents s.selected)
          (tile_hover_system inp.cursorWorld s.tiles) := rfl
    rw [hc] at ht
    rw [ht]
    refine ⟨clickLast_loose inp.justPressedLeft _ w s.tiles, fun hp => ?_⟩
    rw [hp]
    exact hover_colorInvariant w s.tiles
  · have ht : (frame [SystemTag.buttons, SystemTag.click, SystemTag.hover]
        inp s).tiles =
        tile_hover_system inp.cursorWorld
          (mouse_click_system inp.justPressedLeft inp.cursorWorld
            (tile_type_button_system inp.buttonEvents s.selected)
            s.tiles) := rfl
    rw [hc] at ht
    rw [ht]
    exact ⟨loose_of_colorInvariant _ (hover_colorInvariant w _),
      fun _ => hover_colorInvariant w _⟩
  · have ht : (frame [SystemTag.buttons, SystemTag.hover, SystemTag.click]
        inp s).tiles =
        mouse_click_system inp.justPressedLeft inp.cursorWorld
          (tile_type_button_system inp.buttonEvents s.selected)
          (tile_hover_system inp.cursorWorld s.tiles) := rfl
    rw [hc] at ht
    rw [ht]
    refine ⟨clickLast_loose inp.justPressedLeft _ w s.tiles, fun hp => ?_⟩
    rw [hp]
    exact hover_colorInvariant w s.tiles

/-- Witness for C2 at the startup state after one frame, in the listed
system order, with the cursor at world point (0, 0) and no click. -/
theorem claim_C2_witness :
    colorInvariantUnderCursorClick false (0, 0)
      (frame updateSystems (FrameInput.mk false (some (0, 0)) [])
        (AppState.mk (spawn_tiles fun _ => 0) initialSelected)).tiles ∧
    (false = false →
      colorInvariant (some (0, 0))
        (frame updateSystems (FrameInput.mk false (some (0, 0)) [])
          (AppState.mk (spawn_tiles fun _ => 0) initialSelected)).tiles) :=
  @claim_C2_color_invariant (AppState.mk (spawn_tiles fun _ => 0) initialSelected)
    (Reachable.init _) updateSystems (List.Perm.refl _)
    (FrameInput.mk false (some (0, 0)) []) (0, 0) rfl

/-- C2 as stated is false: the color invariant does not hold in every
reachable frame-boundary state, whatever the system order. Hover one
frame over the tile at grid coordinate (5, 5) (it turns the highlight
color), then move the cursor outside the window: the hover system skips
its action, the tile keeps the highlight color, yet no tile's box
contains the (absent) cursor. -/
theorem claim_C2_counterexample :
    ¬ ∀ (s : AppState) (inp : FrameInput) (order : List SystemTag),
        order.Perm updateSystems → Reachable s →
        colorInvariant inp.cursorWorld (frame order inp s).tiles := by
  intro hclaim
  have h2 := hclaim
    (frame updateSystems (FrameInput.mk false (some (0, 0)) [])
      (AppState.mk (spawn_tiles fun _ => 0) initialSelected))
    (FrameInput.mk false none [])
    updateSystems (List.Perm.refl _)
    (Reachable.step _ _ (List.Perm.refl _) (Reachable.init _))
  have h3 : ∀ t ∈ (frame updateSystems (FrameInput.mk false none [])
      (frame updateSystems (FrameInput.mk false (some (0, 0)) [])
        (AppState.mk (spawn_tiles fun _ => 0) initialSelected))).tiles,
      t.color = t.ty.color := h2
  have h55 : (frame updateSystems (FrameInput.mk false none [])
      (frame updateSystems (FrameInput.mk false (some (0, 0)) [])
        (AppState.mk (spawn_tiles fun _ => 0) initialSelected))).tiles[55]? =
      some { spawnTile (fun _ => 0) 5 5 with color := Color.YELLOW } := by
    show (tile_hover_system (some (0, 0)) (spawn_tiles fun _ => 0))[55]? = _
    rw [tile_hover_system_some, List.getElem?_map,
      spawn_tiles_getElem (fun _ => 0)
        (show 55 < GRID_HEIGHT * GRID_WIDTH by norm_num [GRID_WIDTH, GRID_HEIGHT]),
      Option.map_some']
    have h5 : hitTest (0, 0)
        ((spawnTile (fun _ => 0) (55 % GRID_WIDTH) (55 / GRID_WIDTH)).pos) = true := by
      rw [spawnTile_pos]
      norm_num [hitTest, tilePos, TILE_SIZE, GRID_WIDTH, GRID_HEIGHT]
    rw [if_pos h5]
    norm_num [GRID_WIDTH]
  have h4 := h3 _ (List.getElem?_mem h55)
  simp only [spawnTile_ty] at h4
  simp [tileTypeOfByte, TileType.color, Color.YELLOW, Color.GREEN, Color.rgb,
    GRID_WIDTH] at h4

theorem buttonSystem_lastPressed (events : List (Interaction × TileType))
    (sel : TileType) :
    tile_type_button_system events sel =
      match lastPressed events with
      | some t => t
      | none => sel := by
  induction events generalizing sel with
  | nil => rfl
  | cons e es ih =>
    show tile_type_button_system es
      (match e.1 with | .Pressed => e.2 | .Hovered => sel | .None => sel) = _
    rw [ih]
    cases he : lastPressed es with
    | some t => simp [lastPressed, he]
    | none => cases e1 : e.1 <;> simp [lastPressed, he, e1]

/-- C5: the selected type is `Grass` at startup; each frame the button
system sets it to the type of the last button whose interaction changed
to `Pressed`, and leaves it unchanged when no changed button is pressed
(hover and idle changes are no-ops); a subsequent click paints with the
selected type. -/
theorem claim_C5_selected_type :
    initialSelected = TileType.Grass ∧
    (∀ (events : List (Interaction × TileType)) (sel : TileType),
      tile_type_button_system events sel =
        match lastPressed events with
        | some t => t
        | none => sel) ∧
    ∀ (tiles : List Tile) (w : ℚ × ℚ) (sel : TileType) (i : ℕ) (t : Tile),
      tiles[i]? = some t → hitTest w t.pos = true →
        (mouse_click_system true (some w) sel tiles)[i]? =
          some { t with ty := sel, color := sel.color } := by
  refine ⟨rfl, buttonSystem_lastPressed, fun tiles w sel i t ht hw => ?_⟩
  rw [mouse_click_system_some_true, List.getElem?_map, ht, Option.map_some',
    if_pos hw]

/-- Witness for C5: pressing the Water button selects Water, and a
subsequent click at world point (0, 0) paints tile number 55 Water. -/
theorem claim_C5_witness :
    tile_type_button_system [(Interaction.Pressed, TileType.Water)]
      initialSelected = TileType.Water ∧
    (mouse_click_system true (some (0, 0)) TileType.Water
      (spawn_tiles fun _ => 0))[55]? =
      some { spawnTile (fun _ => 0) 5 5 with
        ty := TileType.Water
        color := TileType.Water.color } := by
  constructor
  · exact claim_C5_selected_type.2.1 [(Interaction.Pressed, TileType.Water)]
      initialSelected
  · refine claim_C5_selected_type.2.2 _ _ _ _ _ ?_ ?_
    · rw [spawn_tiles_getElem (fun _ => 0)
        (show 55 < GRID_HEIGHT * GRID_WIDTH by norm_num [GRID_WIDTH, GRID_HEIGHT])]
      norm_num [GRID_WIDTH]
    · rw [spawnTile_pos]
      norm_num [hitTest, tilePos, TILE_SIZE, GRID_WIDTH, GRID_HEIGHT]

/-- C10: the hit region is strictly larger than the rendered sprite: the
sprite is drawn at `TILE_SIZE - 2` (30×30) while the hit test accepts any
point strictly within `TILE_SIZE / 2` (16) of the tile's center on each
axis, so a click in the 2-pixel visual gap beside a sprite on either
axis — at or beyond the sprite's half-extent 15 horizontally or
vertically, yet inside the tile's 32×32 box — still repaints that tile. -/
theorem claim_C10_gap_click_paints :
    (∀ (rand : ℕ → ℕ) (x y : ℕ), (spawnTile rand x y).size = TILE_SIZE - 2) ∧
    (∀ w p : ℚ × ℚ, hitTest w p = true ↔
      |w.1 - p.1| < TILE_SIZE / 2 ∧ |w.2 - p.2| < TILE_SIZE / 2) ∧
    ∀ (tiles : List Tile) (w : ℚ × ℚ) (sel : TileType) (i : ℕ) (t : Tile),
      tiles[i]? = some t →
      (TILE_SIZE - 2) / 2 ≤ |w.1 - t.pos.1| ∨
        (TILE_SIZE - 2) / 2 ≤ |w.2 - t.pos.2| →
      hitTest w t.pos = true →
        (mouse_click_system true (some w) sel tiles)[i]? =
          some { t with ty := sel, color := sel.color } := by
  refine ⟨fun _ _ _ => rfl, hitTest_iff, fun tiles w sel i t ht _ hw => ?_⟩
  rw [mouse_click_system_some_true, List.getElem?_map, ht, Option.map_some',
    if_pos hw]

/-- Witness for C10: the world points (31/2, 0) and (0, 31/2) are 15.5
from the center of the tile at grid coordinate (5, 5), horizontally
respectively vertically — outside its 30×30 sprite, in the visual gap on
each axis — and clicking either point still repaints that tile. -/
theorem claim_C10_witness :
    ((TILE_SIZE - 2) / 2 ≤
      |((31 / 2 : ℚ), (0 : ℚ)).1 - ((spawnTile (fun _ => 0) 5 5).pos).1| ∧
    (mouse_click_system true (some (31 / 2, 0)) TileType.Crop
      (spawn_tiles fun _ => 0))[55]? =
      some { spawnTile (fun _ => 0) 5 5 with
        ty := TileType.Crop
        color := TileType.Crop.color }) ∧
    (TILE_SIZE - 2) / 2 ≤
      |((0 : ℚ), (31 / 2 : ℚ)).2 - ((spawnTile (fun _ => 0) 5 5).pos).2| ∧
    (mouse_click_system true (some (0, 31 / 2)) TileType.Water
      (spawn_tiles fun _ => 0))[55]? =
      some { spawnTile (fun _ => 0) 5 5 with
        ty := TileType.Water
        color := TileType.Water.color } := by
  have ht : (spawn_tiles fun _ => 0)[55]? = some (spawnTile (fun _ => 0) 5 5) := by
    rw [spawn_tiles_getElem (fun _ => 0)
      (show 55 < GRID_HEIGHT * GRID_WIDTH by norm_num [GRID_WIDTH, GRID_HEIGHT])]
    norm_num [GRID_WIDTH]
  have hposx : ((spawnTile (fun _ => 0) 5 5).pos).1 = 0 := by
    rw [spawnTile_pos]
    norm_num [tilePos, TILE_SIZE, GRID_WIDTH]
  have hposy : ((spawnTile (fun _ => 0) 5 5).pos).2 = 0 := by
    rw [spawnTile_pos]
    norm_num [tilePos, TILE_SIZE, GRID_HEIGHT]
  have hgapx : (TILE_SIZE - 2) / 2 ≤
      |((31 / 2 : ℚ), (0 : ℚ)).1 - ((spawnTile (fun _ => 0) 5 5).pos).1| := by
    rw [hposx, show |((31 / 2 : ℚ), (0 : ℚ)).1 - 0| = 31 / 2 from by
      rw [abs_of_nonneg] <;> norm_num]
    norm_num [TILE_SIZE]
  have hgapy : (TILE_SIZE - 2) / 2 ≤
      |((0 : ℚ), (31 / 2 : ℚ)).2 - ((spawnTile (fun _ => 0) 5 5).pos).2| := by
    rw [hposy, show |((0 : ℚ), (31 / 2 : ℚ)).2 - 0| = 31 / 2 from by
      rw [abs_of_nonneg] <;> norm_num]
    norm_num [TILE_SIZE]
  refine ⟨⟨hgapx, claim_C10_gap_click_paints.2.2 _ _ _ _ _ ht (Or.inl hgapx) ?_⟩,
    hgapy, claim_C10_gap_click_paints.2.2 _ _ _ _ _ ht (Or.inr hgapy) ?_⟩
  · rw [spawnTile_pos]
    norm_num [hitTest, tilePos, TILE_SIZE, GRID_WIDTH, GRID_HEIGHT, abs_lt]
  · rw [spawnTile_pos]
    norm_num [hitTest, tilePos, TILE_SIZE, GRID_WIDTH, GRID_HEIGHT, abs_lt]

end AztlanGarden
